import Mathlib

/-!
Shallow embedding of the Mass-adoption backend (two Express variants:
the persistent MongoDB variant in src/api/index.js and the in-memory
variant in src/unnamed/part_000), together with theorems settling the
frozen claims about share quotas, eligibility, application submission,
payment verification and the webhook handler.

Conventions of the embedding:
- JSON scalar values are modelled by `Val`; a JSON object is an
  association list `Doc` (first key wins, as for MongoDB documents and
  JS objects).
- Stored collections are association lists keyed by phone (shares,
  applications) or by reference (in-memory payments); the MongoDB
  payments collection, keyed by the pair phone+reference, is a flat
  list of `PayDocP` documents searched by both fields, mirroring
  findOne with a two-field filter and updateOne with upsert.
- Wall-clock timestamps (new Date()) are modelled by a `now : Nat`
  parameter threaded into each handler that stores one.
- The external Paystack call is modelled by a `providerStatus` input:
  `none` stands for a thrown transport error (the catch branch),
  `some st` for a response whose data.status is `st`.  The in-memory
  verify handler additionally reports the list of references it sent
  to the provider, so that absence of a provider call is provable.
- Counters are `Nat`, so the lower bound 0 of the share counters holds
  by type; the source never subtracts from them.
-/

namespace MassAdoption

/-- JSON-ish scalar values appearing in request bodies and stored documents. -/
inductive Val where
  | str (s : String)
  | num (n : Int)
  | bool (b : Bool)
deriving DecidableEq, Repr

/-- A JSON object as an association list from field names to values. -/
abbrev Doc := List (String × Val)

/-- First-match lookup in an association list, as MongoDB findOne on a
single-field filter or a JS object index. -/
def findA {α : Type} (l : List (String × α)) (k : String) : Option α :=
  match l with
  | [] => none
  | (k₀, v) :: rest => if k₀ = k then some v else findA rest k

/-- Update the first entry with the given key, or append a fresh entry built
from `init` when the key is absent: MongoDB updateOne with upsert on a
single-field filter, or a JS keyed assignment. -/
def upsertA {α : Type} (l : List (String × α)) (k : String) (f : α → α) (init : α) :
    List (String × α) :=
  match l with
  | [] => [(k, init)]
  | (k₀, v) :: rest => if k₀ = k then (k₀, f v) :: rest else (k₀, v) :: upsertA rest k f init

/-- Update the first entry with the given key, leaving the list unchanged when
the key is absent (a JS keyed field assignment on an existing entry). -/
def updateA {α : Type} (l : List (String × α)) (k : String) (f : α → α) :
    List (String × α) :=
  match l with
  | [] => []
  | (k₀, v) :: rest => if k₀ = k then (k₀, f v) :: rest else (k₀, v) :: updateA rest k f

/-- Read a field of a JSON object. -/
def getField (d : Doc) (k : String) : Option Val := findA d k

/-- Set a field of a JSON object (replace the first occurrence or append). -/
def setField (d : Doc) (k : String) (v : Val) : Doc := upsertA d k (fun _ => v) v

/-- Apply a list of field assignments in order, as a MongoDB $set document or
a JS object spread: later assignments win. -/
def applySet (d : Doc) (l : List (String × Val)) : Doc :=
  l.foldl (fun acc kv => setField acc kv.1 kv.2) d

/-- Per-phone share counters, the friends/groups fields of a shares document
(src/api/index.js line 27, src/unnamed/part_000 line 30). -/
structure ShareRec where
  friends : Nat
  groups : Nat
deriving DecidableEq, Repr

/-- The zero record used when no shares document exists for a phone. -/
def defaultShares : ShareRec := ⟨0, 0⟩

/-- The share-update rule shared by both variants: increment the counter
matching the type, then clamp with Math.min to its cap (10 friends, 2 groups);
any other type leaves the record unchanged (src/api/index.js lines 28-29,
src/unnamed/part_000 lines 60-64). -/
def updateShares (r : ShareRec) (type_ : String) : ShareRec :=
  if type_ = "friend" then { r with friends := min (r.friends + 1) 10 }
  else if type_ = "group" then { r with groups := min (r.groups + 1) 2 }
  else r

/-- A document of the MongoDB payments collection, as written by the
persistent variant (src/api/index.js lines 71-75 and 110-114). -/
structure PayDocP where
  phone : String
  reference : String
  status : String
  upgrade : Bool
  updatedAt : Nat
deriving DecidableEq, Repr

/-- findOne on the payments collection with the two-field filter
phone+reference. -/
def findPay (l : List PayDocP) (phone reference : String) : Option PayDocP :=
  match l with
  | [] => none
  | d :: rest =>
    if d.phone = phone ∧ d.reference = reference then some d else findPay rest phone reference

/-- updateOne with upsert on the payments collection, filter phone+reference:
apply the $set to the first matching document, or insert `init`. -/
def upsertPay (l : List PayDocP) (phone reference : String) (f : PayDocP → PayDocP)
    (init : PayDocP) : List PayDocP :=
  match l with
  | [] => [init]
  | d :: rest =>
    if d.phone = phone ∧ d.reference = reference then f d :: rest
    else d :: upsertPay rest phone reference f init

/-- The three MongoDB collections used by the persistent variant. -/
structure StoreP where
  shares : List (String × ShareRec)
  payments : List PayDocP
  applications : List (String × Doc)
deriving DecidableEq, Repr

/-- A store with all three collections empty. -/
def emptyP : StoreP := ⟨[], [], []⟩

/-- Response of POST /api/share: 200 with the post-update counters, or 400
on invalid input. -/
structure ShareResp where
  status : Nat
  friends : Nat
  groups : Nat
deriving DecidableEq, Repr

/-- POST /api/share, persistent variant (src/api/index.js lines 22-36):
validate phone and type, read the shares document (default 0/0), apply the
increment-and-clamp rule, upsert, and answer with the new counters. -/
def recordShareP (phone type_ : String) (s : StoreP) : ShareResp × StoreP :=
  if phone = "" ∨ (type_ ≠ "friend" ∧ type_ ≠ "group") then (⟨400, 0, 0⟩, s)
  else
    let r := updateShares ((findA s.shares phone).getD defaultShares) type_
    (⟨200, r.friends, r.groups⟩, { s with shares := upsertA s.shares phone (fun _ => r) r })

/-- A sequence of POST /api/share calls for one phone, applied to the store
in order; the event strings are the type field of each request body. -/
def applyShareEvents (phone : String) (events : List String) (s : StoreP) : StoreP :=
  events.foldl (fun st t => (recordShareP phone t st).2) s

/-- Response body of GET /api/eligibility. -/
structure EligResp where
  canAccessForm : Bool
  paid : Bool
deriving DecidableEq, Repr

/-- GET /api/eligibility, persistent variant (src/api/index.js lines 85-95):
missing phone answers false/false; otherwise canAccessForm compares the
stored counters (missing treated as 0) against the quotas, and paid is the
existence of a payments document with this phone and status success.  The
handler performs no store write, which the unchanged second component
records. -/
def eligibilityP (phone : String) (s : StoreP) : EligResp × StoreP :=
  if phone = "" then (⟨false, false⟩, s)
  else
    let r := (findA s.shares phone).getD defaultShares
    let payment := s.payments.find? (fun d => decide (d.phone = phone ∧ d.status = "success"))
    (⟨decide (10 ≤ r.friends) && decide (2 ≤ r.groups), payment.isSome⟩, s)

/-- Response of POST /api/application. -/
structure SubmitResp where
  status : Nat
  success : Bool
deriving DecidableEq, Repr

/-- POST /api/application, persistent variant (src/api/index.js lines 47-57):
destructure phone from the body (the remaining fields are formData), 400 when
phone is missing, then unconditionally upsert the application document with a
$set of the form fields plus phone and updatedAt.  There is no eligibility
check in this variant. -/
def submitP (phone : String) (formData : Doc) (now : Nat) (s : StoreP) : SubmitResp × StoreP :=
  if phone = "" then (⟨400, false⟩, s)
  else
    let setDoc := formData ++ [("phone", Val.str phone), ("updatedAt", Val.num (Int.ofNat now))]
    let apps := upsertA s.applications phone (fun d => applySet d setDoc) (applySet [] setDoc)
    (⟨200, true⟩, { s with applications := apps })

/-- Response of POST /api/verify-payment (persistent variant). -/
structure VerifyRespP where
  status : Nat
  success : Bool
deriving DecidableEq, Repr

/-- POST /api/verify-payment, persistent variant (src/api/index.js lines
60-82): validate reference and phone, call the provider; on a thrown
transport error or a non-success status answer 400; on success upsert the
payments document for phone+reference with status success and the upgrade
flag taken from the request body through JS double-negation coercion
(the upgrade body field is modelled as an optional boolean, absent coercing
to false). -/
def verifyP (reference phone : String) (upgrade : Option Bool)
    (providerStatus : Option String) (now : Nat) (s : StoreP) : VerifyRespP × StoreP :=
  if reference = "" ∨ phone = "" then (⟨400, false⟩, s)
  else
    match providerStatus with
    | none => (⟨400, false⟩, s)
    | some st =>
      if st = "success" then
        let u := upgrade.getD false
        let pays := upsertPay s.payments phone reference
          (fun d => { d with status := "success", upgrade := u, updatedAt := now })
          ⟨phone, reference, "success", u, now⟩
        (⟨200, true⟩, { s with payments := pays })
      else (⟨400, false⟩, s)

/-- The data object of a Paystack webhook event: the fields the handler
reads (metadata.phone and customer.phone are optional; a data value that is
a primitive rather than an object reads every field as undefined and is
represented with both phones absent). -/
structure WebhookData where
  metadataPhone : Option String
  customerPhone : Option String
  reference : String
  amount : Int
deriving DecidableEq, Repr

/-- A parsed webhook body that is an object (or a primitive, whose field
reads are all undefined): the event field read by the handler, and the data
field, which is absent (`none`) when the body carries no data object or a
null one — exactly the case in which data.metadata throws. -/
structure WebhookEvent where
  event : String
  data : Option WebhookData
deriving DecidableEq, Repr

/-- Outcome of JSON.parse on the raw body string the webhook handler
receives: a parse failure, the JSON value null (whose event field access
throws), or anything else, whose event field read is total.  Which wire
requests land in `malformed` depends on the middleware stack: since the
global express.json (src/api/index.js line 7) runs ahead of the route-level
express.raw, an application/json body arrives pre-parsed and its toString is
not valid JSON, so it lands in `malformed` as well. -/
inductive ParsedBody where
  | malformed
  | nullBody
  | object (e : WebhookEvent)
deriving DecidableEq, Repr

/-- What the webhook handler sends back: an HTTP response together with the
post state, or no response at all because an uncaught exception escaped the
handler (the try/catch of src/api/index.js lines 100-104 only wraps
JSON.parse). -/
inductive WebhookOut where
  | resp (status : Nat) (state : StoreP)
  | thrown (state : StoreP)
deriving DecidableEq, Repr

/-- The HTTP status the webhook handler answered with, none when the handler
threw and no response was sent. -/
def WebhookOut.statusSent : WebhookOut → Option Nat
  | .resp st _ => some st
  | .thrown _ => none

/-- JS truthiness filter for an optional phone string: an absent field or an
empty string both act as null in the fallback chain. -/
def jsTruthyStr (o : Option String) : Option String :=
  o.bind (fun s => if s = "" then none else some s)

/-- POST /api/paystack-webhook, persistent variant (src/api/index.js lines
98-118): an unparseable body is answered 400; a body parsing to null throws
at the event field access, outside the try/catch, so no response is sent; a
charge.success event without a data object likewise throws at data.metadata
(line 107).  Every other parsed body is answered 200, with a payments upsert
only when the event is charge.success and a phone resolves from metadata or
customer; the upgrade flag is inferred from the minor-unit amount threshold
100000. -/
def webhookP (body : ParsedBody) (now : Nat) (s : StoreP) : WebhookOut :=
  match body with
  | .malformed => .resp 400 s
  | .nullBody => .thrown s
  | .object e =>
    if e.event = "charge.success" then
      match e.data with
      | none => .thrown s
      | some data =>
        match (jsTruthyStr data.metadataPhone).orElse
            (fun _ => jsTruthyStr data.customerPhone) with
        | some phone =>
          let upg := decide (100000 ≤ data.amount)
          let pays := upsertPay s.payments phone data.reference
            (fun d => { d with status := "success", upgrade := upg, updatedAt := now })
            ⟨phone, data.reference, "success", upg, now⟩
          .resp 200 { s with payments := pays }
        | none => .resp 200 s
    else .resp 200 s

/-- A payment record of the in-memory variant, created by POST
/api/init-payment (src/unnamed/part_000 lines 117-123) and keyed by
reference. -/
structure PayRecM where
  phone : String
  amount : Int
  isUpgrade : Bool
  verified : Bool
  verifiedAt : Option Nat
  createdAt : Nat
deriving DecidableEq, Repr

/-- The in-memory db object of src/unnamed/part_000 (payments keyed by
reference, shares and applications keyed by phone). -/
structure StoreM where
  shares : List (String × ShareRec)
  payments : List (String × PayRecM)
  applications : List (String × Doc)
deriving DecidableEq, Repr

/-- Response body of GET /api/verify-payment (in-memory variant): amount and
isUpgrade are present only on the success branch. -/
structure VerifyRespM where
  status : Nat
  success : Bool
  amount : Option Int
  isUpgrade : Option Bool
deriving DecidableEq, Repr

/-- Full outcome of GET /api/verify-payment: response, post-state, and the
references for which the provider verify endpoint was contacted. -/
structure VerifyOutM where
  resp : VerifyRespM
  state : StoreM
  providerCalls : List String
deriving DecidableEq, Repr

/-- GET /api/verify-payment, in-memory variant (src/unnamed/part_000 lines
136-176): 400 when the reference is missing; 404 before any provider call
when no payment record exists for the reference; otherwise the provider is
called (500 on a thrown transport error).  On provider success the record is
marked verified with verifiedAt stamped, and when the record was initiated
with isUpgrade and an application exists for its phone, that application
document gets upgraded set to true; the response carries the stored amount
and isUpgrade.  On any other provider status the state is left untouched and
the response is success false. -/
def verifyM (reference : String) (providerStatus : Option String) (now : Nat)
    (s : StoreM) : VerifyOutM :=
  if reference = "" then ⟨⟨400, false, none, none⟩, s, []⟩
  else
    match findA s.payments reference with
    | none => ⟨⟨404, false, none, none⟩, s, []⟩
    | some payment =>
      match providerStatus with
      | none => ⟨⟨500, false, none, none⟩, s, [reference]⟩
      | some st =>
        if st = "success" then
          let pays := updateA s.payments reference
            (fun p => { p with verified := true, verifiedAt := some now })
          let apps :=
            if payment.isUpgrade ∧ (findA s.applications payment.phone).isSome then
              updateA s.applications payment.phone (fun d => setField d "upgraded" (Val.bool true))
            else s.applications
          ⟨⟨200, true, some payment.amount, some payment.isUpgrade⟩, ⟨s.shares, pays, apps⟩,
            [reference]⟩
        else ⟨⟨200, false, none, none⟩, s, [reference]⟩

/-- The share record currently stored for a phone, missing treated as 0/0,
exactly as every read site coalesces it. -/
def storedShares (s : StoreP) (phone : String) : ShareRec :=
  (findA s.shares phone).getD defaultShares

/-! Association-list lemmas. -/

theorem findA_upsertA_self {α : Type} (l : List (String × α)) (k : String) (f : α → α)
    (init : α) :
    findA (upsertA l k f init) k = some ((findA l k).elim init f) := by
  induction l with
  | nil => simp [findA, upsertA]
  | cons hd tl ih =>
    obtain ⟨k₀, v⟩ := hd
    by_cases h : k₀ = k
    · simp [findA, upsertA, h]
    · simp [findA, upsertA, h, ih]

theorem findA_upsertA_ne {α : Type} (l : List (String × α)) (k k' : String) (f : α → α)
    (init : α) (h : k' ≠ k) :
    findA (upsertA l k f init) k' = findA l k' := by
  induction l with
  | nil => simp [findA, upsertA, Ne.symm h]
  | cons hd tl ih =>
    obtain ⟨k₀, v⟩ := hd
    by_cases hk : k₀ = k
    · subst hk
      simp [findA, upsertA, Ne.symm h]
    · simp only [upsertA, if_neg hk, findA]
      by_cases hk' : k₀ = k'
      · simp [hk']
      · simp [hk', ih]

theorem findA_updateA_self {α : Type} (l : List (String × α)) (k : String) (f : α → α) :
    findA (updateA l k f) k = (findA l k).map f := by
  induction l with
  | nil => simp [findA, updateA]
  | cons hd tl ih =>
    obtain ⟨k₀, v⟩ := hd
    by_cases h : k₀ = k
    · simp [findA, updateA, h]
    · simp [findA, updateA, h, ih]

theorem findA_updateA_ne {α : Type} (l : List (String × α)) (k k' : String) (f : α → α)
    (h : k' ≠ k) :
    findA (updateA l k f) k' = findA l k' := by
  induction l with
  | nil => simp [updateA]
  | cons hd tl ih =>
    obtain ⟨k₀, v⟩ := hd
    by_cases hk : k₀ = k
    · subst hk
      simp [findA, updateA, Ne.symm h]
    · simp only [updateA, if_neg hk, findA]
      by_cases hk' : k₀ = k'
      · simp [hk']
      · simp [hk', ih]

theorem findPay_upsertPay_self (l : List PayDocP) (phone reference : String)
    (f : PayDocP → PayDocP) (init : PayDocP)
    (hf : ∀ d, (f d).phone = d.phone ∧ (f d).reference = d.reference)
    (hinit : init.phone = phone ∧ init.reference = reference) :
    findPay (upsertPay l phone reference f init) phone reference =
      some ((findPay l phone reference).elim init f) := by
  induction l with
  | nil => simp [findPay, upsertPay, hinit.1, hinit.2]
  | cons d rest ih =>
    by_cases h : d.phone = phone ∧ d.reference = reference
    · have hfd := hf d
      simp [findPay, upsertPay, h, hfd.1, hfd.2, h.1, h.2]
    · simp [findPay, upsertPay, h, ih]

theorem getField_setField_self (d : Doc) (k : String) (v : Val) :
    getField (setField d k v) k = some v := by
  rw [getField, setField, findA_upsertA_self]
  cases findA d k <;> rfl

theorem getField_setField_ne (d : Doc) (k k' : String) (v : Val) (h : k' ≠ k) :
    getField (setField d k v) k' = getField d k' := by
  rw [getField, setField, findA_upsertA_ne _ _ _ _ _ h]
  rfl

theorem applySet_nil (d : Doc) : applySet d [] = d := rfl

theorem applySet_cons (d : Doc) (k : String) (v : Val) (l : List (String × Val)) :
    applySet d ((k, v) :: l) = applySet (setField d k v) l := rfl

theorem applySet_append (d : Doc) (l₁ l₂ : List (String × Val)) :
    applySet d (l₁ ++ l₂) = applySet (applySet d l₁) l₂ := by
  simp [applySet, List.foldl_append]

theorem getField_applySet_not_mem (d : Doc) (l : List (String × Val)) (k : String)
    (h : k ∉ l.map Prod.fst) :
    getField (applySet d l) k = getField d k := by
  induction l generalizing d with
  | nil => rfl
  | cons hd tl ih =>
    obtain ⟨k₀, v⟩ := hd
    simp only [List.map_cons, List.mem_cons, not_or] at h
    rw [applySet_cons, ih _ h.2, getField_setField_ne _ _ _ _ h.1]

theorem getField_applySet_mem (d : Doc) (l : List (String × Val)) (k : String) (v : Val)
    (hnd : (l.map Prod.fst).Nodup) (hmem : (k, v) ∈ l) :
    getField (applySet d l) k = some v := by
  induction l generalizing d with
  | nil => simp at hmem
  | cons hd tl ih =>
    obtain ⟨k₀, v₀⟩ := hd
    simp only [List.map_cons, List.nodup_cons] at hnd
    rcases List.mem_cons.mp hmem with heq | htl
    · cases heq
      rw [applySet_cons, getField_applySet_not_mem _ _ _ hnd.1, getField_setField_self]
    · rw [applySet_cons]
      exact ih _ hnd.2 htl

theorem find?_isSome_iff {α : Type} (p : α → Bool) (l : List α) :
    (l.find? p).isSome = true ↔ ∃ x ∈ l, p x = true := by
  induction l with
  | nil => simp
  | cons a t ih =>
    by_cases h : p a
    · simp [List.find?_cons_of_pos _ h, h]
    · simp only [List.find?_cons_of_neg _ h, ih, List.mem_cons]
      constructor
      · rintro ⟨x, hx, hpx⟩
        exact ⟨x, Or.inr hx, hpx⟩
      · rintro ⟨x, hx | hx, hpx⟩
        · exact absurd hpx (hx ▸ h)
        · exact ⟨x, hx, hpx⟩

/-! Share-quota invariant (claim C3). -/

/-- Every stored share record respects the caps. -/
def sharesInvariant (s : StoreP) : Prop :=
  ∀ p r, findA s.shares p = some r → r.friends ≤ 10 ∧ r.groups ≤ 2

theorem updateShares_bounds (r : ShareRec) (type_ : String)
    (hf : r.friends ≤ 10) (hg : r.groups ≤ 2) :
    (updateShares r type_).friends ≤ 10 ∧ (updateShares r type_).groups ≤ 2 := by
  unfold updateShares
  split_ifs <;> exact ⟨by simp [hf, min_le_right], by simp [hg, min_le_right]⟩

theorem recordShareP_preserves_inv (phone type_ : String) (s : StoreP)
    (h : sharesInvariant s) : sharesInvariant (recordShareP phone type_ s).2 := by
  unfold recordShareP
  split
  · exact h
  · dsimp only
    intro p r hr
    by_cases hp : p = phone
    · subst hp
      rw [findA_upsertA_self] at hr
      cases hfind : findA s.shares p with
      | none =>
        rw [hfind] at hr
        simp only [Option.elim_none, Option.getD_none] at hr
        injection hr with hr
        subst hr
        exact updateShares_bounds _ _ (by simp [defaultShares]) (by simp [defaultShares])
      | some r₀ =>
        rw [hfind] at hr
        simp only [Option.elim_some, Option.getD_some] at hr
        injection hr with hr
        subst hr
        have hb := h p r₀ hfind
        exact updateShares_bounds _ _ hb.1 hb.2
    · rw [findA_upsertA_ne _ _ _ _ _ hp] at hr
      exact h p r hr

theorem applyShareEvents_nil (phone : String) (s : StoreP) :
    applyShareEvents phone [] s = s := rfl

theorem applyShareEvents_cons (phone t : String) (ts : List String) (s : StoreP) :
    applyShareEvents phone (t :: ts) s = applyShareEvents phone ts (recordShareP phone t s).2 :=
  rfl

theorem applyShareEvents_preserves_inv (phone : String) (events : List String) (s : StoreP)
    (h : sharesInvariant s) : sharesInvariant (applyShareEvents phone events s) := by
  induction events generalizing s with
  | nil => exact h
  | cons t ts ih =>
    rw [applyShareEvents_cons]
    exact ih _ (recordShareP_preserves_inv phone t s h)

/-- C3: for every phone and every finite sequence of POST /api/share events
applied to it starting from the empty store (default 0/0 record), the stored
share record satisfies 0 <= friends <= 10 and 0 <= groups <= 2.  The event
list quantifies over arbitrary request type strings, so the invariant in
particular holds after every prefix of any sequence of valid events. -/
theorem share_counters_always_bounded (phone : String) (events : List String) :
    0 ≤ (storedShares (applyShareEvents phone events emptyP) phone).friends ∧
    (storedShares (applyShareEvents phone events emptyP) phone).friends ≤ 10 ∧
    0 ≤ (storedShares (applyShareEvents phone events emptyP) phone).groups ∧
    (storedShares (applyShareEvents phone events emptyP) phone).groups ≤ 2 := by
  have hinv : sharesInvariant (applyShareEvents phone events emptyP) :=
    applyShareEvents_preserves_inv phone events emptyP
      (by intro p r hr; simp [emptyP, findA] at hr)
  unfold storedShares
  cases hfind : findA (applyShareEvents phone events emptyP).shares phone with
  | none => simp [defaultShares]
  | some r =>
    have hb := hinv phone r hfind
    simp only [Option.getD_some]
    exact ⟨Nat.zero_le _, hb.1, Nat.zero_le _, hb.2⟩

/-- C2: GET /api/eligibility (persistent variant) answers canAccessForm true
exactly when the stored share record (missing treated as 0/0) has
friends >= 10 and groups >= 2, answers paid true exactly when some stored
payments document carries this phone with status success, and leaves the
store untouched. -/
theorem eligibility_evaluate_spec (phone : String) (s : StoreP) (hp : phone ≠ "") :
    ((eligibilityP phone s).1.canAccessForm = true ↔
      10 ≤ (storedShares s phone).friends ∧ 2 ≤ (storedShares s phone).groups) ∧
    ((eligibilityP phone s).1.paid = true ↔
      ∃ d ∈ s.payments, d.phone = phone ∧ d.status = "success") ∧
    (eligibilityP phone s).2 = s := by
  unfold eligibilityP storedShares
  rw [if_neg hp]
  refine ⟨by simp, ?_, rfl⟩
  have hiff := find?_isSome_iff (fun d => decide (d.phone = phone ∧ d.status = "success"))
    s.payments
  simp only [decide_eq_true_eq] at hiff
  exact hiff

/-- A sample store for the eligibility witness: quotas met and one successful
payment recorded. -/
def sElig : StoreP :=
  ⟨[("p", ⟨10, 2⟩)], [⟨"p", "r1", "success", false, 0⟩], []⟩

/-- Witness for C2 at a concrete phone and store. -/
theorem eligibility_evaluate_spec_witness :
    ("p" : String) ≠ "" ∧
    (((eligibilityP "p" sElig).1.canAccessForm = true ↔
      10 ≤ (storedShares sElig "p").friends ∧ 2 ≤ (storedShares sElig "p").groups) ∧
    ((eligibilityP "p" sElig).1.paid = true ↔
      ∃ d ∈ sElig.payments, d.phone = "p" ∧ d.status = "success") ∧
    (eligibilityP "p" sElig).2 = sElig) :=
  ⟨by decide, eligibility_evaluate_spec "p" sElig (by decide)⟩

theorem recordShareP_stored (phone type_ : String) (s : StoreP) (hp : phone ≠ "")
    (hv : type_ = "friend" ∨ type_ = "group") :
    findA (recordShareP phone type_ s).2.shares phone =
      some (updateShares ((findA s.shares phone).getD defaultShares) type_) := by
  unfold recordShareP
  rw [if_neg (by rcases hv with h | h <;> simp [hp, h])]
  dsimp only
  rw [findA_upsertA_self]
  cases findA s.shares phone <;> rfl

/-- C8: a POST /api/share event whose matching counter is strictly below its
cap increments exactly that counter by one; an event whose matching counter
is at its cap (10 for friend, 2 for group) leaves the stored record
unchanged; and five group events from the empty store leave groups at 2. -/
theorem recordShare_step_spec (phone : String) (s : StoreP) (r : ShareRec)
    (hp : phone ≠ "") (hr : findA s.shares phone = some r) :
    (r.friends < 10 →
      findA (recordShareP phone "friend" s).2.shares phone =
        some ⟨r.friends + 1, r.groups⟩) ∧
    (r.friends = 10 →
      findA (recordShareP phone "friend" s).2.shares phone = some r) ∧
    (r.groups < 2 →
      findA (recordShareP phone "group" s).2.shares phone =
        some ⟨r.friends, r.groups + 1⟩) ∧
    (r.groups = 2 →
      findA (recordShareP phone "group" s).2.shares phone = some r) ∧
    findA (applyShareEvents phone (List.replicate 5 "group") emptyP).shares phone =
      some ⟨0, 2⟩ := by
  obtain ⟨f, g⟩ := r
  refine ⟨?_, ?_, ?_, ?_, ?_⟩
  · intro hlt
    rw [recordShareP_stored phone "friend" s hp (Or.inl rfl), hr]
    have hlt' : f < 10 := hlt
    have hmin : min (f + 1) 10 = f + 1 := by omega
    simp [updateShares, hmin]
  · intro hcap
    rw [recordShareP_stored phone "friend" s hp (Or.inl rfl), hr]
    simp only at hcap
    subst hcap
    simp [updateShares]
  · intro hlt
    rw [recordShareP_stored phone "group" s hp (Or.inr rfl), hr]
    have hlt' : g < 2 := hlt
    have hmin : min (g + 1) 2 = g + 1 := by omega
    simp [updateShares, hmin]
  · intro hcap
    rw [recordShareP_stored phone "group" s hp (Or.inr rfl), hr]
    simp only at hcap
    subst hcap
    simp [updateShares]
  · simp [List.replicate, applyShareEvents_cons, applyShareEvents_nil, recordShareP, hp,
      updateShares, upsertA, findA, emptyP, defaultShares]

/-- A sample store for the share-step witness: friends below the cap, groups
at the cap, so an increment branch and a no-op branch are both exercised. -/
def sStep : StoreP := ⟨[("p", ⟨3, 2⟩)], [], []⟩

/-- Witness for C8 at a concrete phone and store. -/
theorem recordShare_step_spec_witness :
    ("p" : String) ≠ "" ∧ findA sStep.shares "p" = some ⟨3, 2⟩ ∧
    (((3 : Nat) < 10 →
      findA (recordShareP "p" "friend" sStep).2.shares "p" = some ⟨3 + 1, 2⟩) ∧
    ((3 : Nat) = 10 →
      findA (recordShareP "p" "friend" sStep).2.shares "p" = some ⟨3, 2⟩) ∧
    ((2 : Nat) < 2 →
      findA (recordShareP "p" "group" sStep).2.shares "p" = some ⟨3, 2 + 1⟩) ∧
    ((2 : Nat) = 2 →
      findA (recordShareP "p" "group" sStep).2.shares "p" = some ⟨3, 2⟩) ∧
    findA (applyShareEvents "p" (List.replicate 5 "group") emptyP).shares "p" =
      some ⟨0, 2⟩) :=
  ⟨by decide, by decide, recordShare_step_spec "p" sStep ⟨3, 2⟩ (by decide) (by decide)⟩

/-- C1 (evaluation of the code at the failing input): the persistent variant
of POST /api/application performs no eligibility re-check.  From the empty
store, where GET /api/eligibility reports canAccessForm false for phone p,
the Submit request is nevertheless answered 200 success and the
ApplicationRecord is created.  The in-memory variant (src/unnamed/part_000
lines 78-81) answers 403 in the same situation, which together with the spec
marks the missing gate as a defect of src/api/index.js lines 47-57. -/
theorem submit_gate_missing_in_persistent_variant :
    (eligibilityP "p" emptyP).1.canAccessForm = false ∧
    (submitP "p" [("name", Val.str "A")] 0 emptyP).1 = ⟨200, true⟩ ∧
    (findA (submitP "p" [("name", Val.str "A")] 0 emptyP).2.applications "p").isSome = true := by
  decide

/-- C5 counterexample: a webhook request whose body does not decode as the
provider event envelope is not acknowledged with 200: an unparseable body is
answered 400 by src/api/index.js lines 100-104, and a parsed charge.success
event carrying no data object throws at line 107, outside the try/catch, so
no response is sent at all. -/
theorem webhook_malformed_counterexample :
    (webhookP ParsedBody.malformed 0 emptyP).statusSent = some 400 ∧
    ¬ (webhookP ParsedBody.malformed 0 emptyP).statusSent = some 200 ∧
    (webhookP (ParsedBody.object ⟨"charge.success", none⟩) 0 emptyP).statusSent = none := by
  decide

/-- C5 amended: the webhook handler answers 400 when the body string it
receives fails JSON.parse; it sends no response at all when the body parses
to null or to a charge.success event without a data object, the uncaught
TypeError escaping the try/catch; every other parsed body — unknown event
types, charge.success events with unresolvable phones — is acknowledged with
200 whatever the stored state, internal no-ops not surfaced. -/
theorem webhook_response_spec (e : WebhookEvent) (now : Nat) (s : StoreP) :
    (webhookP ParsedBody.malformed now s).statusSent = some 400 ∧
    (webhookP ParsedBody.nullBody now s).statusSent = none ∧
    (e.event = "charge.success" → e.data = none →
      (webhookP (ParsedBody.object e) now s).statusSent = none) ∧
    ((e.event = "charge.success" → e.data.isSome = true) →
      (webhookP (ParsedBody.object e) now s).statusSent = some 200) := by
  refine ⟨rfl, rfl, ?_, ?_⟩
  · intro hev hdata
    simp [webhookP, hev, hdata, WebhookOut.statusSent]
  · intro h
    by_cases hev : e.event = "charge.success"
    · cases hdata : e.data with
      | none => rw [hdata] at h; simp [hev] at h
      | some data =>
        cases hph : (jsTruthyStr data.metadataPhone).orElse
            (fun _ => jsTruthyStr data.customerPhone) with
        | some phone => simp [webhookP, hev, hdata, hph, WebhookOut.statusSent]
        | none => simp [webhookP, hev, hdata, hph, WebhookOut.statusSent]
    · simp [webhookP, hev, WebhookOut.statusSent]

/-- A sample charge.success event with a data object and a resolvable phone,
for the webhook witness. -/
def eHook : WebhookEvent := ⟨"charge.success", some ⟨some "p", none, "r9", 200000⟩⟩

/-- Witness for C5 at a concrete event, time and store. -/
theorem webhook_response_spec_witness :
    (webhookP ParsedBody.malformed 5 emptyP).statusSent = some 400 ∧
    (webhookP ParsedBody.nullBody 5 emptyP).statusSent = none ∧
    (eHook.event = "charge.success" → eHook.data = none →
      (webhookP (ParsedBody.object eHook) 5 emptyP).statusSent = none) ∧
    ((eHook.event = "charge.success" → eHook.data.isSome = true) →
      (webhookP (ParsedBody.object eHook) 5 emptyP).statusSent = some 200) :=
  webhook_response_spec eHook 5 emptyP

/-- Flag every document of an optional lookup result as upgraded, the update
applied to the application of an upgrade payment. -/
def markUpgraded (o : Option Doc) : Option Doc :=
  o.map (fun d => setField d "upgraded" (Val.bool true))

/-- C7: a GET /api/verify-payment call (in-memory variant, the implementation
of the spec Verify operation) for a reference with no stored PaymentRecord
answers 404, leaves the whole store unchanged and contacts the provider for
no reference at all, whatever the provider would have answered. -/
theorem verify_unknown_reference_404 (reference : String) (providerStatus : Option String)
    (now : Nat) (s : StoreM) (hr : reference ≠ "")
    (hnone : findA s.payments reference = none) :
    verifyM reference providerStatus now s = ⟨⟨404, false, none, none⟩, s, []⟩ := by
  unfold verifyM
  rw [if_neg hr, hnone]

/-- The empty in-memory store. -/
def sM0 : StoreM := ⟨[], [], []⟩

/-- Witness for C7 at a concrete reference and store. -/
theorem verify_unknown_reference_404_witness :
    ("r1" : String) ≠ "" ∧ findA sM0.payments "r1" = none ∧
    verifyM "r1" (some "success") 0 sM0 = ⟨⟨404, false, none, none⟩, sM0, []⟩ :=
  ⟨by decide, by decide,
    verify_unknown_reference_404 "r1" (some "success") 0 sM0 (by decide) (by decide)⟩

/-- C6: when the provider reports any non-success status for a reference with
an existing PaymentRecord, GET /api/verify-payment (in-memory variant)
answers success false and leaves the store, in particular the stored
PaymentRecord with its pending verified = false status, completely
unchanged. -/
theorem verify_nonsuccess_frame (reference st : String) (now : Nat) (s : StoreM)
    (payment : PayRecM) (hr : reference ≠ "")
    (hfind : findA s.payments reference = some payment) (hst : st ≠ "success") :
    (verifyM reference (some st) now s).resp = ⟨200, false, none, none⟩ ∧
    (verifyM reference (some st) now s).state = s := by
  unfold verifyM
  rw [if_neg hr, hfind]
  dsimp only
  rw [if_neg hst]
  exact ⟨rfl, rfl⟩

/-- A sample in-memory store with one pending payment. -/
def sM6 : StoreM := ⟨[], [("r1", ⟨"p", 5000, false, false, none, 0⟩)], []⟩

/-- Witness for C6 at a concrete reference, store and provider status. -/
theorem verify_nonsuccess_frame_witness :
    ("r1" : String) ≠ "" ∧ findA sM6.payments "r1" = some ⟨"p", 5000, false, false, none, 0⟩ ∧
    ("failed" : String) ≠ "success" ∧
    ((verifyM "r1" (some "failed") 3 sM6).resp = ⟨200, false, none, none⟩ ∧
     (verifyM "r1" (some "failed") 3 sM6).state = sM6) :=
  ⟨by decide, by decide, by decide,
    verify_nonsuccess_frame "r1" "failed" 3 sM6 ⟨"p", 5000, false, false, none, 0⟩
      (by decide) (by decide) (by decide)⟩

/-- C4: when the provider reports success for a reference with an existing
PaymentRecord, GET /api/verify-payment (in-memory variant) answers success
true carrying the stored amount and upgrade flag, marks the stored record
verified with verifiedAt stamped to the current time, and, whenever the
record was initiated with isUpgrade and an ApplicationRecord exists for its
phone, sets the upgraded field of that application document to true. -/
theorem verify_success_spec (reference : String) (now : Nat) (s : StoreM)
    (payment : PayRecM) (hr : reference ≠ "")
    (hfind : findA s.payments reference = some payment) :
    (verifyM reference (some "success") now s).resp =
      ⟨200, true, some payment.amount, some payment.isUpgrade⟩ ∧
    findA (verifyM reference (some "success") now s).state.payments reference =
      some { payment with verified := true, verifiedAt := some now } ∧
    (payment.isUpgrade = true → (findA s.applications payment.phone).isSome = true →
      findA (verifyM reference (some "success") now s).state.applications payment.phone =
        markUpgraded (findA s.applications payment.phone)) := by
  unfold verifyM
  rw [if_neg hr, hfind]
  dsimp only
  rw [if_pos rfl]
  refine ⟨rfl, ?_, ?_⟩
  · dsimp only
    rw [findA_updateA_self, hfind]
    rfl
  · intro hup happ
    dsimp only
    rw [if_pos ⟨by rw [hup], happ⟩, findA_updateA_self]
    cases findA s.applications payment.phone <;> rfl

/-- A sample in-memory store with a pending upgrade payment and an existing
application for its phone. -/
def sM4 : StoreM :=
  ⟨[], [("r1", ⟨"p", 5000, true, false, none, 0⟩)],
    [("p", [("phone", Val.str "p"), ("name", Val.str "A")])]⟩

/-- Witness for C4 at a concrete reference, store and time. -/
theorem verify_success_spec_witness :
    ("r1" : String) ≠ "" ∧ findA sM4.payments "r1" = some ⟨"p", 5000, true, false, none, 0⟩ ∧
    ((verifyM "r1" (some "success") 7 sM4).resp = ⟨200, true, some 5000, some true⟩ ∧
     findA (verifyM "r1" (some "success") 7 sM4).state.payments "r1" =
       some ⟨"p", 5000, true, true, some 7, 0⟩ ∧
     ((true : Bool) = true → (findA sM4.applications "p").isSome = true →
       findA (verifyM "r1" (some "success") 7 sM4).state.applications "p" =
         markUpgraded (findA sM4.applications "p"))) :=
  ⟨by decide, by decide,
    verify_success_spec "r1" 7 sM4 ⟨"p", 5000, true, false, none, 0⟩ (by decide) (by decide)⟩

/-- The field of a stored application document, when both the document and the
field exist. -/
def storedAppField (s : StoreP) (phone k : String) : Option Val :=
  (findA s.applications phone).bind (fun d => getField d k)

/-- C9: resubmitting the application form for a phone whose stored
ApplicationRecord carries upgraded = true (persistent variant) succeeds,
applies the form fields plus phone and updatedAt as a field-wise $set to the
existing document, and in particular leaves the upgraded flag set to true;
the form data is required not to carry an upgraded field of its own, which
the submitted form never does since the flag is server-managed. -/
theorem submit_preserves_upgraded (phone : String) (formData : Doc) (now : Nat)
    (s : StoreP) (oldDoc : Doc) (hp : phone ≠ "")
    (hfind : findA s.applications phone = some oldDoc)
    (hupg : getField oldDoc "upgraded" = some (Val.bool true))
    (hnoclobber : "upgraded" ∉ formData.map Prod.fst) :
    (submitP phone formData now s).1 = ⟨200, true⟩ ∧
    findA (submitP phone formData now s).2.applications phone =
      some (applySet oldDoc
        (formData ++ [("phone", Val.str phone), ("updatedAt", Val.num (Int.ofNat now))])) ∧
    storedAppField (submitP phone formData now s).2 phone "upgraded" =
      some (Val.bool true) := by
  have hstored : findA (submitP phone formData now s).2.applications phone =
      some (applySet oldDoc
        (formData ++ [("phone", Val.str phone), ("updatedAt", Val.num (Int.ofNat now))])) := by
    unfold submitP
    rw [if_neg hp]
    dsimp only
    rw [findA_upsertA_self, hfind]
    rfl
  refine ⟨by unfold submitP; rw [if_neg hp], hstored, ?_⟩
  rw [storedAppField, hstored]
  simp only [Option.some_bind]
  rw [getField_applySet_not_mem, hupg]
  simp only [List.map_append, List.mem_append, not_or]
  exact ⟨hnoclobber, by simp⟩

/-- A sample persistent store whose application for phone p is flagged
upgraded. -/
def sApp : StoreP :=
  ⟨[], [], [("p", [("phone", Val.str "p"), ("name", Val.str "A"),
    ("upgraded", Val.bool true)])]⟩

/-- Witness for C9 at a concrete phone, form body and store. -/
theorem submit_preserves_upgraded_witness :
    ("p" : String) ≠ "" ∧
    findA sApp.applications "p" =
      some [("phone", Val.str "p"), ("name", Val.str "A"), ("upgraded", Val.bool true)] ∧
    getField [("phone", Val.str "p"), ("name", Val.str "A"), ("upgraded", Val.bool true)]
      "upgraded" = some (Val.bool true) ∧
    ("upgraded" : String) ∉ ([("name", Val.str "B")] : Doc).map Prod.fst ∧
    ((submitP "p" [("name", Val.str "B")] 9 sApp).1 = ⟨200, true⟩ ∧
     findA (submitP "p" [("name", Val.str "B")] 9 sApp).2.applications "p" =
       some (applySet [("phone", Val.str "p"), ("name", Val.str "A"),
         ("upgraded", Val.bool true)]
         ([("name", Val.str "B")] ++
           [("phone", Val.str "p"), ("updatedAt", Val.num (Int.ofNat 9))])) ∧
     storedAppField (submitP "p" [("name", Val.str "B")] 9 sApp).2 "p" "upgraded" =
       some (Val.bool true)) :=
  ⟨by decide, by decide, by decide, by decide,
    submit_preserves_upgraded "p" [("name", Val.str "B")] 9 sApp
      [("phone", Val.str "p"), ("name", Val.str "A"), ("upgraded", Val.bool true)]
      (by decide) (by decide) (by decide) (by decide)⟩

/-- The upgrade flag of the payments document stored for phone+reference
after a provider-success POST /api/verify-payment in the persistent
variant. -/
def upgradeWritten (reference phone : String) (upgrade : Option Bool) (now : Nat)
    (s : StoreP) : Option Bool :=
  (findPay (verifyP reference phone upgrade (some "success") now s).2.payments
    phone reference).map (fun d => d.upgrade)

theorem upgradeWritten_eq (reference phone : String) (upgrade : Option Bool) (now : Nat)
    (s : StoreP) (hr : reference ≠ "") (hp : phone ≠ "") :
    upgradeWritten reference phone upgrade now s = some (upgrade.getD false) := by
  unfold upgradeWritten verifyP
  rw [if_neg (by simp [hr, hp])]
  dsimp only
  rw [if_pos rfl]
  dsimp only
  rw [findPay_upsertPay_self s.payments phone reference
    (fun d => { d with status := "success", upgrade := upgrade.getD false, updatedAt := now })
    ⟨phone, reference, "success", upgrade.getD false, now⟩
    (fun d => ⟨rfl, rfl⟩) ⟨rfl, rfl⟩]
  cases findPay s.payments phone reference <;> rfl

/-- C10: in the persistent variant of POST /api/verify-payment, the upgrade
flag written to the stored PaymentRecord on a successful verification is the
boolean coercion of the upgrade field of the request body (absent coercing to
false), for every stored state; consequently two runs that differ only in
the stored initiation state but share the same request body write the same
upgrade value. -/
theorem verify_upgrade_from_request_body (reference phone : String) (upgrade : Option Bool)
    (now : Nat) (s s₁ s₂ : StoreP) (hr : reference ≠ "") (hp : phone ≠ "") :
    upgradeWritten reference phone upgrade now s = some (upgrade.getD false) ∧
    upgradeWritten reference phone upgrade now s₁ =
      upgradeWritten reference phone upgrade now s₂ := by
  refine ⟨upgradeWritten_eq reference phone upgrade now s hr hp, ?_⟩
  rw [upgradeWritten_eq reference phone upgrade now s₁ hr hp,
    upgradeWritten_eq reference phone upgrade now s₂ hr hp]

/-- A persistent store holding initiation data that disagrees with the
request body upgrade field, for the C10 witness. -/
def sInit : StoreP := ⟨[], [⟨"p", "r1", "pending", true, 0⟩], []⟩

/-- Witness for C10 at a concrete body and two stores that differ in the
stored initiation state. -/
theorem verify_upgrade_from_request_body_witness :
    ("r1" : String) ≠ "" ∧ ("p" : String) ≠ "" ∧
    (upgradeWritten "r1" "p" (some false) 0 sInit = some ((some false).getD false) ∧
     upgradeWritten "r1" "p" (some false) 0 sInit =
       upgradeWritten "r1" "p" (some false) 0 emptyP) :=
  ⟨by decide, by decide,
    verify_upgrade_from_request_body "r1" "p" (some false) 0 sInit sInit emptyP
      (by decide) (by decide)⟩

end MassAdoption
